import Mathlib

/-!
Verification of the rpinder/raytracer core against its specification.

The Rust source stores all scalars as `f32`; this development models them as
real numbers with exact arithmetic, and models the shared absolute tolerance
`fp_equal` (src/utils.rs) explicitly.  Fallible operations (panicking
assertions and out-of-bounds indexing) are modelled with `Option`.
-/

open scoped Classical

noncomputable section

namespace RT

/-- The shared comparison tolerance, src/utils.rs `fp_equal`: `|a - b| < 0.00001`. -/
def epsilon : ℝ := 1 / 100000

/-- src/utils.rs `fp_equal`. -/
def fp_equal (a b : ℝ) : Prop := |a - b| < epsilon

/-- src/vector.rs `Vector`. -/
structure Vector where
  x : ℝ
  y : ℝ
  z : ℝ

namespace Vector

/-- `impl Add for Vector`. -/
def add (a b : Vector) : Vector := ⟨a.x + b.x, a.y + b.y, a.z + b.z⟩

/-- `impl Sub for Vector`. -/
def sub (a b : Vector) : Vector := ⟨a.x - b.x, a.y - b.y, a.z - b.z⟩

/-- `impl Neg for Vector`. -/
def neg (a : Vector) : Vector := ⟨-a.x, -a.y, -a.z⟩

/-- `impl Mul<f32> for Vector`. -/
def smul (a : Vector) (s : ℝ) : Vector := ⟨a.x * s, a.y * s, a.z * s⟩

/-- `Vector::dot`. -/
def dot (a b : Vector) : ℝ := a.x * b.x + a.y * b.y + a.z * b.z

/-- `Vector::cross`. -/
def cross (a b : Vector) : Vector :=
  ⟨a.y * b.z - a.z * b.y, a.z * b.x - a.x * b.z, a.x * b.y - a.y * b.x⟩

/-- `Vector::magnitude`: square root of the sum of squared components. -/
def magnitude (a : Vector) : ℝ := Real.sqrt (a.x ^ 2 + a.y ^ 2 + a.z ^ 2)

/-- `Vector::normalize`: divide each component by the magnitude. -/
def normalize (a : Vector) : Vector :=
  ⟨a.x / a.magnitude, a.y / a.magnitude, a.z / a.magnitude⟩

/-- `Vector::reflect`: `*self - *other * 2.0 * self.dot(other)`. -/
def reflect (a n : Vector) : Vector := a.sub ((n.smul 2).smul (a.dot n))

/-- `impl PartialEq for Vector`: componentwise `fp_equal`. -/
def approxEq (a b : Vector) : Prop :=
  fp_equal a.x b.x ∧ fp_equal a.y b.y ∧ fp_equal a.z b.z

end Vector

/-- src/point.rs `Point`. -/
structure Point where
  x : ℝ
  y : ℝ
  z : ℝ

namespace Point

/-- `impl Sub for Point` (Point − Point → Vector). -/
def sub (a b : Point) : Vector := ⟨a.x - b.x, a.y - b.y, a.z - b.z⟩

/-- `impl Sub<Vector> for Point`. -/
def subVector (a : Point) (v : Vector) : Point := ⟨a.x - v.x, a.y - v.y, a.z - v.z⟩

/-- `impl Add<Vector> for Point`, exactly as written in the source:
`Self::new(self.x + other.x, self.y - other.y, self.z - other.z)` —
the y and z components are subtracted, not added. -/
def addVector (a : Point) (v : Vector) : Point := ⟨a.x + v.x, a.y - v.y, a.z - v.z⟩

/-- `impl PartialEq for Point`: componentwise `fp_equal`. -/
def approxEq (a b : Point) : Prop :=
  fp_equal a.x b.x ∧ fp_equal a.y b.y ∧ fp_equal a.z b.z

end Point

/-- The displacement the specification means by "point + normal × ε": true
component-wise addition of a vector to a point (contrast `Point.addVector` as
implemented, which subtracts y and z).  Used only to compare the code's
`over_point` against the spec's wording. -/
def displace (p : Point) (v : Vector) : Point := ⟨p.x + v.x, p.y + v.y, p.z + v.z⟩

/-- src/color.rs `Color`. -/
structure Color where
  red : ℝ
  green : ℝ
  blue : ℝ

namespace Color

/-- `impl Add for Color`. -/
def add (a b : Color) : Color := ⟨a.red + b.red, a.green + b.green, a.blue + b.blue⟩

/-- `impl Mul<f32> for Color`. -/
def smul (a : Color) (s : ℝ) : Color := ⟨a.red * s, a.green * s, a.blue * s⟩

/-- `impl Mul<Color> for Color` (Hadamard product). -/
def mul (a b : Color) : Color := ⟨a.red * b.red, a.green * b.green, a.blue * b.blue⟩

/-- `impl PartialEq for Color`: componentwise `fp_equal`. -/
def approxEq (a b : Color) : Prop :=
  fp_equal a.red b.red ∧ fp_equal a.green b.green ∧ fp_equal a.blue b.blue

end Color

/-- src/matrix.rs `Matrix`: row/col dimensions and a flat row-major grid. -/
structure Matrix where
  row : ℕ
  col : ℕ
  grid : List ℝ

namespace Matrix

/-- `Matrix::new`: a row × col matrix of zeros. -/
def new (row col : ℕ) : Matrix := ⟨row, col, List.replicate (row * col) 0⟩

/-- `Matrix::get`, two-phase as in the source: the explicit guard panics when
`row > self.row || col > self.col`; past the guard,
`self.grid[row * self.col + col]` panics when the flat index is out of bounds.
Both panics are modelled as `none`. -/
def get? (m : Matrix) (r c : ℕ) : Option ℝ :=
  if r ≤ m.row ∧ c ≤ m.col then m.grid.get? (r * m.col + c) else none

/-- `Matrix::set`, with the same two failure stages as `get`. -/
def set? (m : Matrix) (r c : ℕ) (v : ℝ) : Option Matrix :=
  if r ≤ m.row ∧ c ≤ m.col then
    if r * m.col + c < m.grid.length then
      some ⟨m.row, m.col, m.grid.set (r * m.col + c) v⟩
    else none
  else none

/-- Totalization of `Matrix::get` for the in-bounds accesses made inside the
algorithms (where the source never fails): flat row-major indexing. -/
def getE (m : Matrix) (r c : ℕ) : ℝ := m.grid.getD (r * m.col + c) 0

/-- The flat indices kept by `Matrix::submatrix`: the source walks
`grid.iter().enumerate()` and skips index `i` when it lies in row `dr`
(`i >= dr*col && i < (dr+1)*col`) or in column `dc` (`i % col == dc`). -/
def subIdx (col len dr dc : ℕ) : List ℕ :=
  (List.range len).filter
    (fun i => decide (¬ ((dr * col ≤ i ∧ i < (dr + 1) * col) ∨ i % col = dc)))

/-- `Matrix::submatrix`: the surviving entries are written sequentially into a
zero-filled (row-1) × (col-1) grid; trailing zeros remain if fewer entries
survive than the capacity (for consistent dimensions the count is exact, and
more survivors than capacity, which would panic, cannot occur). -/
def submatrix (m : Matrix) (dr dc : ℕ) : Matrix :=
  let size := (m.row - 1) * (m.col - 1)
  let fl := (subIdx m.col m.grid.length dr dc).map (fun i => m.grid.getD i 0)
  ⟨m.row - 1, m.col - 1, fl.take size ++ List.replicate (size - fl.length) 0⟩

/-- `Matrix::determinant`: 2×2 base case, otherwise cofactor expansion along
row 0 (`det += get(0,i) * cofactor(0,i)` with `cofactor` inlined).  The fuel
stands for the source recursion, which decreases `row` by one through
`submatrix`; `determinant` instantiates the fuel with `row`, which covers the
recursion exactly (a 0-fuel call is only reached for 0×0 submatrices, whose
expansion loop is empty and yields 0 in the source as well). -/
def detFuel : ℕ → Matrix → ℝ
  | 0, _ => 0
  | fuel + 1, m =>
    if m.row = 2 then m.getE 0 0 * m.getE 1 1 - m.getE 0 1 * m.getE 1 0
    else ((List.range m.col).map
      (fun i => m.getE 0 i *
        (detFuel fuel (m.submatrix 0 i) * (if (0 + i) % 2 = 0 then (1:ℝ) else -1)))).sum

/-- `Matrix::determinant` (see `detFuel`). -/
def determinant (m : Matrix) : ℝ := detFuel m.row m

/-- `Matrix::minor`. -/
def minor (m : Matrix) (dr dc : ℕ) : ℝ := determinant (m.submatrix dr dc)

/-- `Matrix::cofactor`. -/
def cofactor (m : Matrix) (dr dc : ℕ) : ℝ :=
  m.minor dr dc * (if (dr + dc) % 2 = 0 then (1:ℝ) else -1)

/-- `Matrix::invertible`: `!fp_equal(self.determinant(), 0.0)`. -/
def invertible (m : Matrix) : Prop := ¬ fp_equal m.determinant 0

/-- The matrix built by `Matrix::inverse` after its invertibility assertion:
iterating (row, col) in row-major order and writing `cofactor(row, col) / det`
at position (col, row), the flat slot `i` of the result ends up holding
`cofactor(i % col, i / col) / det`. -/
def inverseBody (m : Matrix) : Matrix :=
  ⟨m.row, m.col,
    (List.range (m.row * m.col)).map
      (fun i => m.cofactor (i % m.col) (i / m.col) / m.determinant)⟩

/-- `Matrix::inverse`: `assert!(self.invertible())` (modelled as `none`), then
the cofactor/adjugate construction. -/
def inverse (m : Matrix) : Option Matrix :=
  if fp_equal m.determinant 0 then none else some m.inverseBody

/-- `Matrix::transpose`: hardcoded 4×4, `m.set(j, i, self.get(i, j))`, so the
flat slot `i` of the result holds the source entry at (i % 4, i / 4). -/
def transpose (m : Matrix) : Matrix :=
  ⟨4, 4, (List.range 16).map (fun i => m.getE (i % 4) (i / 4))⟩

/-- `Matrix::identity`. -/
def identity : Matrix := ⟨4, 4, [1,0,0,0, 0,1,0,0, 0,0,1,0, 0,0,0,1]⟩

/-- `Matrix::translation`: identity with the last column set to (x, y, z). -/
def translation (x y z : ℝ) : Matrix := ⟨4, 4, [1,0,0,x, 0,1,0,y, 0,0,1,z, 0,0,0,1]⟩

/-- `Matrix::scaling`: zeros with (x, y, z, 1) written on the diagonal. -/
def scaling (x y z : ℝ) : Matrix := ⟨4, 4, [x,0,0,0, 0,y,0,0, 0,0,z,0, 0,0,0,1]⟩

/-- One entry of the 4×4 row-by-column product of `impl Mul<Matrix> for Matrix`. -/
def mulEntry (x y : Matrix) (r c : ℕ) : ℝ :=
  x.getE r 0 * y.getE 0 c + x.getE r 1 * y.getE 1 c +
  x.getE r 2 * y.getE 2 c + x.getE r 3 * y.getE 3 c

/-- `impl Mul<Matrix> for Matrix`: hardcoded 4×4, row-major write order. -/
def mul (x y : Matrix) : Matrix :=
  ⟨4, 4, (List.range 4).flatMap (fun r => (List.range 4).map (fun c => mulEntry x y r c))⟩

/-- `impl Mul<Point> for Matrix`: rows 0..2 of the homogeneous product, w = 1. -/
def mulPoint (m : Matrix) (p : Point) : Point :=
  ⟨m.getE 0 0 * p.x + m.getE 0 1 * p.y + m.getE 0 2 * p.z + m.getE 0 3 * 1,
   m.getE 1 0 * p.x + m.getE 1 1 * p.y + m.getE 1 2 * p.z + m.getE 1 3 * 1,
   m.getE 2 0 * p.x + m.getE 2 1 * p.y + m.getE 2 2 * p.z + m.getE 2 3 * 1⟩

/-- `impl Mul<Vector> for Matrix`: w = 0, the translation column is ignored. -/
def mulVector (m : Matrix) (v : Vector) : Vector :=
  ⟨m.getE 0 0 * v.x + m.getE 0 1 * v.y + m.getE 0 2 * v.z,
   m.getE 1 0 * v.x + m.getE 1 1 * v.y + m.getE 1 2 * v.z,
   m.getE 2 0 * v.x + m.getE 2 1 * v.y + m.getE 2 2 * v.z⟩

/-- `impl PartialEq for Matrix`: asserts equal dimensions, then componentwise
`fp_equal` over the flat grids. -/
def approxEq (x y : Matrix) : Prop :=
  x.row = y.row ∧ x.col = y.col ∧
  ∀ i, i < x.grid.length → fp_equal (x.grid.getD i 0) (y.grid.getD i 0)

/-- A well-formed 4×4 matrix, the shape of every scene matrix. -/
def wf4 (m : Matrix) : Prop := m.row = 4 ∧ m.col = 4 ∧ m.grid.length = 16

/-- An explicit 4×4 matrix, used to destructure well-formed matrices. -/
def mk4 (a b c d e f g h i j k l m n o p : ℝ) : Matrix :=
  ⟨4, 4, [a,b,c,d, e,f,g,h, i,j,k,l, m,n,o,p]⟩

/-- A matrix in explicit 4×4 form. -/
def isMk4 (m : Matrix) : Prop :=
  ∃ a b c d e f g h i j k l mm n o p, m = mk4 a b c d e f g h i j k l mm n o p

end Matrix

/-- src/material.rs `Material`. -/
structure Material where
  color : Color
  ambient : ℝ
  diffuse : ℝ
  specular : ℝ
  shininess : ℝ

/-- `Material::default`. -/
def defaultMaterial : Material := ⟨⟨1, 1, 1⟩, 0.1, 0.9, 0.9, 200⟩

/-- src/sphere.rs `Sphere`: a transform matrix and a material. -/
structure Sphere where
  matrix : Matrix
  material : Material

/-- `Sphere::default`: identity transform and default material. -/
def defaultSphere : Sphere := ⟨Matrix.identity, defaultMaterial⟩

/-- src/ray.rs `Ray`. -/
structure Ray where
  origin : Point
  direction : Vector

namespace Ray

/-- `Ray::position`: `origin + direction * t` — note this uses the Point +
Vector addition exactly as implemented (y and z subtracted). -/
def position (r : Ray) (t : ℝ) : Point := r.origin.addVector (r.direction.smul t)

/-- `Ray::transform`. -/
def transform (r : Ray) (m : Matrix) : Ray := ⟨m.mulPoint r.origin, m.mulVector r.direction⟩

end Ray

/-- src/ray.rs `Intersection`: a parameter `t` and the sphere hit. -/
structure Intersection where
  t : ℝ
  object : Sphere

/-- `f32::MAX`, the initial `current` of `hit`. -/
def FMAX : ℝ := 2 ^ 128 - 2 ^ 104

/-- The `for_each` loop of `hit`: state is (`current`, `cinter`); an
intersection replaces the state when its `t` is strictly below `current`. -/
def hitGo : List Intersection → ℝ → Option Intersection → Option Intersection
  | [], _, acc => acc
  | i :: rest, cur, acc =>
    if i.t < cur then hitGo rest i.t (some i) else hitGo rest cur acc

/-- src/ray.rs `hit`: filter to `t > 0.0`, then scan for the minimum starting
from `current = f32::MAX`. -/
def hit (l : List Intersection) : Option Intersection :=
  hitGo (l.filter (fun i => decide (0 < i.t))) FMAX none

/-- `a` of the object-space quadratic of `Ray::intersect` (on the transformed ray). -/
def quadA (r : Ray) : ℝ := r.direction.dot r.direction

/-- `b` of the quadratic: `2 * direction.dot(origin - (0,0,0))`. -/
def quadB (r : Ray) : ℝ := 2 * r.direction.dot (r.origin.sub ⟨0, 0, 0⟩)

/-- `c` of the quadratic: `(origin - (0,0,0)).dot(itself) - 1`. -/
def quadC (r : Ray) : ℝ := (r.origin.sub ⟨0, 0, 0⟩).dot (r.origin.sub ⟨0, 0, 0⟩) - 1

/-- The discriminant `b² - 4ac` of `Ray::intersect`. -/
def quadDisc (r : Ray) : ℝ := quadB r ^ 2 - 4 * quadA r * quadC r

/-- src/ray.rs `Ray::intersect`: transform the ray by the inverse of the
sphere transform (`none` when the inverse assertion fails), then solve the
quadratic; an empty list when the discriminant is negative, else the two roots
attached to (clones of) the same sphere. -/
def intersect (r : Ray) (s : Sphere) : Option (List Intersection) :=
  match Matrix.inverse s.matrix with
  | none => none
  | some minv =>
    let ray := r.transform minv
    if quadDisc ray < 0 then some []
    else some [⟨(-quadB ray - Real.sqrt (quadDisc ray)) / (2 * quadA ray), s⟩,
               ⟨(-quadB ray + Real.sqrt (quadDisc ray)) / (2 * quadA ray), s⟩]

/-- src/sphere.rs `Sphere::normal_at`: object point via the inverse transform,
object normal = object point − origin, world normal via the transposed inverse,
then normalized.  (The source computes the inverse twice; both computations
give the same matrix, here bound once.) -/
def normalAt (s : Sphere) (p : Point) : Option Vector :=
  match Matrix.inverse s.matrix with
  | none => none
  | some ti =>
    let object_point := ti.mulPoint p
    let object_normal := object_point.sub ⟨0, 0, 0⟩
    let world_normal := (ti.transpose).mulVector object_normal
    some world_normal.normalize

/-- src/world_intersection.rs `WorldIntersection`. -/
structure WorldIntersection where
  inter : Intersection
  point : Point
  eye : Vector
  normal : Vector
  inside : Prop
  over_point : Point

/-- src/world_intersection.rs `WorldIntersection::precompute`.  Note the order
in the source: `over_point` is computed from `normal` before the inside-flip,
and the flip happens only in the struct literal (`if inside { -normal }`). -/
def precompute (i : Intersection) (r : Ray) : Option WorldIntersection :=
  match normalAt i.object (r.position i.t) with
  | none => none
  | some n =>
    let point := r.position i.t
    let eye := r.direction.neg
    let inside := n.dot eye < 0
    let over_point := point.addVector (n.smul 0.005)
    some ⟨i, point, eye, if inside then n.neg else n, inside, over_point⟩

/-- src/point_light.rs `PointLight`. -/
structure PointLight where
  position : Point
  intensity : Color

/-- src/point_light.rs `PointLight::lighting`, exactly as implemented: the
signature is `lighting(&self, mat, pos, eye, normal)` — there is NO
`in_shadow` parameter and no shadow branch. -/
def lighting (l : PointLight) (mat : Material) (pos : Point) (eye normal : Vector) : Color :=
  let effective_color := mat.color.mul l.intensity
  let lightv := (l.position.sub pos).normalize
  let ambient := effective_color.smul mat.ambient
  let light_dot_normal := lightv.dot normal
  let ds : Color × Color :=
    if light_dot_normal < 0 then (⟨0, 0, 0⟩, ⟨0, 0, 0⟩)
    else
      let diff := (effective_color.smul mat.diffuse).smul light_dot_normal
      let reflectv := (lightv.neg).reflect normal
      let reflect_dot_eye := reflectv.dot eye
      if reflect_dot_eye ≤ 0 then (diff, ⟨0, 0, 0⟩)
      else
        let factor := Real.rpow reflect_dot_eye mat.shininess
        (diff, (l.intensity.smul mat.specular).smul factor)
  (ambient.add ds.1).add ds.2

/-- Modelled from the spec: `World::shade_hit` (src/world.rs) calls a
five-argument `lighting(material, point, eye, normal, in_shadow)` which does
not exist in src/point_light.rs (the version there takes no shadow flag, so
the call does not type-check).  Spec section 4.3: if `in_shadow`, return only
the ambient term; otherwise the Phong sum, which is the implemented
four-argument `lighting`. -/
def lightingShadowed (l : PointLight) (mat : Material) (pos : Point)
    (eye normal : Vector) (in_shadow : Prop) : Color :=
  if in_shadow then (mat.color.mul l.intensity).smul mat.ambient
  else lighting l mat pos eye normal

/-- src/world.rs `World`. -/
structure World where
  objects : List Sphere
  light : PointLight

namespace World

/-- The `sort_by(t.partial_cmp)` of `World::intersect_world`. -/
def sortT (l : List Intersection) : List Intersection :=
  l.mergeSort (fun a b => decide (a.t ≤ b.t))

/-- src/world.rs `World::intersect_world`: intersect against every object,
flatten, sort ascending by t.  `none` when any sphere transform inversion
fails (a panic in the source). -/
def intersect_world (w : World) (r : Ray) : Option (List Intersection) :=
  (w.objects.mapM (fun s => intersect r s)).map (fun ls => sortT ls.flatten)

/-- src/world.rs `World::is_shadowed`. -/
def is_shadowed (w : World) (p : Point) : Option Prop :=
  let v := w.light.position.sub p
  let distance := v.magnitude
  let direction := v.normalize
  (intersect_world w ⟨p, direction⟩).map (fun xs =>
    match hit xs with
    | some h => h.t < distance
    | none => False)

/-- src/world.rs `World::shade_hit` (its five-argument lighting call is the
spec-modelled `lightingShadowed`). -/
def shade_hit (w : World) (comps : WorldIntersection) : Option Color :=
  (is_shadowed w comps.over_point).map (fun sh =>
    lightingShadowed w.light comps.inter.object.material comps.point comps.eye comps.normal sh)

/-- src/world.rs `World::color_at`. -/
def color_at (w : World) (r : Ray) : Option Color :=
  (intersect_world w r).bind (fun inters =>
    match hit inters with
    | some i => (precompute i r).bind (fun c => shade_hit w c)
    | none => some ⟨0, 0, 0⟩)

end World

/-- src/world.rs `World::default`: light at (−10,10,−10) with white intensity;
an outer sphere whose material is the default with color (0.8,1,0.6),
diffuse 0.7, specular 0.2 (via the set_X builders); an inner sphere scaled by
0.5. -/
def defaultWorld : World :=
  ⟨[⟨Matrix.identity, ⟨⟨0.8, 1, 0.6⟩, 0.1, 0.7, 0.2, 200⟩⟩,
    ⟨Matrix.scaling 0.5 0.5 0.5, defaultMaterial⟩],
   ⟨⟨-10, 10, -10⟩, ⟨1, 1, 1⟩⟩⟩

/-- src/camera.rs `Camera`. -/
structure Camera where
  hsize : ℕ
  vsize : ℕ
  field_of_view : ℝ
  transform : Matrix
  pixel_size : ℝ
  half_width : ℝ
  half_height : ℝ

namespace Camera

/-- `Camera::new`: half_view = tan(fov/2); aspect = hsize/vsize; if
aspect ≥ 1 then (half_view, half_view/aspect) else (half_view*aspect,
half_view); pixel_size = half_width * 2 / hsize; identity transform. -/
def new (hsize vsize : ℕ) (fov : ℝ) : Camera :=
  let half_view := Real.tan (fov / 2)
  let aspect := (hsize : ℝ) / (vsize : ℝ)
  let half_width := if 1 ≤ aspect then half_view else half_view * aspect
  let half_height := if 1 ≤ aspect then half_view / aspect else half_view
  ⟨hsize, vsize, fov, Matrix.identity, half_width * 2 / (hsize : ℝ), half_width, half_height⟩

/-- `Camera::ray_for_pixel` (`none` when the transform inversion fails; the
source computes that inverse twice with the same result). -/
def ray_for_pixel (c : Camera) (px py : ℕ) : Option Ray :=
  (Matrix.inverse c.transform).map (fun ti =>
    let xoffset := ((px : ℝ) + 0.5) * c.pixel_size
    let yoffset := ((py : ℝ) + 0.5) * c.pixel_size
    let world_x := c.half_width - xoffset
    let world_y := c.half_height - yoffset
    let pixel := ti.mulPoint ⟨world_x, world_y, -1⟩
    let origin := ti.mulPoint ⟨0, 0, 0⟩
    (⟨origin, (pixel.sub origin).normalize⟩ : Ray))

/-- src/camera.rs `Camera::render`, modelled as the list of
`write_pixel(x, y, color)` events in iteration order.  The source loops are
`for y in 0..(self.vsize - 1)` and `for x in 0..(self.hsize - 1)` — both
EXCLUSIVE of `vsize - 1` / `hsize - 1`. -/
def render (c : Camera) (w : World) : List (ℕ × ℕ × Option Color) :=
  (List.range (c.vsize - 1)).flatMap (fun y =>
    (List.range (c.hsize - 1)).map (fun x =>
      (x, y, (ray_for_pixel c x y).bind (fun r => World.color_at w r))))

end Camera

end RT


/-! ## Theorems.  First the 4×4 matrix algebra layer. -/

namespace RT

set_option maxHeartbeats 1000000

namespace Matrix


lemma mk4_row (a b c d e f g h i j k l m n o p : ℝ) :
    (mk4 a b c d e f g h i j k l m n o p).row = 4 := rfl

lemma mk4_col (a b c d e f g h i j k l m n o p : ℝ) :
    (mk4 a b c d e f g h i j k l m n o p).col = 4 := rfl

lemma mk4_grid (a b c d e f g h i j k l m n o p : ℝ) :
    (mk4 a b c d e f g h i j k l m n o p).grid = [a,b,c,d,e,f,g,h,i,j,k,l,m,n,o,p] := rfl

lemma detFuel4 (m : Matrix) : detFuel 4 m =
    if m.row = 2 then m.getE 0 0 * m.getE 1 1 - m.getE 0 1 * m.getE 1 0
    else ((List.range m.col).map
      (fun i => m.getE 0 i *
        (detFuel 3 (m.submatrix 0 i) * (if (0 + i) % 2 = 0 then (1:ℝ) else -1)))).sum := rfl

lemma detFuel3 (m : Matrix) : detFuel 3 m =
    if m.row = 2 then m.getE 0 0 * m.getE 1 1 - m.getE 0 1 * m.getE 1 0
    else ((List.range m.col).map
      (fun i => m.getE 0 i *
        (detFuel 2 (m.submatrix 0 i) * (if (0 + i) % 2 = 0 then (1:ℝ) else -1)))).sum := rfl

lemma det_two_fuel (v0 v1 v2 v3 : ℝ) :
    detFuel 2 ⟨2, 2, [v0, v1, v2, v3]⟩ = v0 * v3 - v1 * v2 := rfl

lemma sub3_0 (v0 v1 v2 v3 v4 v5 v6 v7 v8 : ℝ) :
    Matrix.submatrix ⟨3, 3, [v0,v1,v2,v3,v4,v5,v6,v7,v8]⟩ 0 0 = ⟨2, 2, [v4,v5,v7,v8]⟩ := by
  norm_num [Matrix.submatrix, Matrix.subIdx, List.filter, List.range_succ]

lemma sub3_1 (v0 v1 v2 v3 v4 v5 v6 v7 v8 : ℝ) :
    Matrix.submatrix ⟨3, 3, [v0,v1,v2,v3,v4,v5,v6,v7,v8]⟩ 0 1 = ⟨2, 2, [v3,v5,v6,v8]⟩ := by
  norm_num [Matrix.submatrix, Matrix.subIdx, List.filter, List.range_succ]

lemma sub3_2 (v0 v1 v2 v3 v4 v5 v6 v7 v8 : ℝ) :
    Matrix.submatrix ⟨3, 3, [v0,v1,v2,v3,v4,v5,v6,v7,v8]⟩ 0 2 = ⟨2, 2, [v3,v4,v6,v7]⟩ := by
  norm_num [Matrix.submatrix, Matrix.subIdx, List.filter, List.range_succ]

lemma det_three_fuel (v0 v1 v2 v3 v4 v5 v6 v7 v8 : ℝ) :
    detFuel 3 ⟨3, 3, [v0,v1,v2,v3,v4,v5,v6,v7,v8]⟩ =
      v0 * (v4 * v8 - v5 * v7) - v1 * (v3 * v8 - v5 * v6) + v2 * (v3 * v7 - v4 * v6) := by
  rw [detFuel3]
  norm_num [sub3_0, sub3_1, sub3_2, det_two_fuel, Matrix.getE, List.range_succ]
  ring

lemma det_three (v0 v1 v2 v3 v4 v5 v6 v7 v8 : ℝ) :
    determinant ⟨3, 3, [v0,v1,v2,v3,v4,v5,v6,v7,v8]⟩ =
      v0 * (v4 * v8 - v5 * v7) - v1 * (v3 * v8 - v5 * v6) + v2 * (v3 * v7 - v4 * v6) :=
  det_three_fuel v0 v1 v2 v3 v4 v5 v6 v7 v8

lemma sub4_00 (a b c d e f g h i j k l m n o p : ℝ) :
    Matrix.submatrix (Matrix.mk4 a b c d e f g h i j k l m n o p) 0 0 =
      ⟨3, 3, [f, g, h, j, k, l, n, o, p]⟩ := by
  norm_num [Matrix.submatrix, Matrix.subIdx, Matrix.mk4, List.filter, List.range_succ]


lemma sub4_01 (a b c d e f g h i j k l m n o p : ℝ) :
    Matrix.submatrix (Matrix.mk4 a b c d e f g h i j k l m n o p) 0 1 =
      ⟨3, 3, [e, g, h, i, k, l, m, o, p]⟩ := by
  norm_num [Matrix.submatrix, Matrix.subIdx, Matrix.mk4, List.filter, List.range_succ]


lemma sub4_02 (a b c d e f g h i j k l m n o p : ℝ) :
    Matrix.submatrix (Matrix.mk4 a b c d e f g h i j k l m n o p) 0 2 =
      ⟨3, 3, [e, f, h, i, j, l, m, n, p]⟩ := by
  norm_num [Matrix.submatrix, Matrix.subIdx, Matrix.mk4, List.filter, List.range_succ]


lemma sub4_03 (a b c d e f g h i j k l m n o p : ℝ) :
    Matrix.submatrix (Matrix.mk4 a b c d e f g h i j k l m n o p) 0 3 =
      ⟨3, 3, [e, f, g, i, j, k, m, n, o]⟩ := by
  norm_num [Matrix.submatrix, Matrix.subIdx, Matrix.mk4, List.filter, List.range_succ]


lemma sub4_10 (a b c d e f g h i j k l m n o p : ℝ) :
    Matrix.submatrix (Matrix.mk4 a b c d e f g h i j k l m n o p) 1 0 =
      ⟨3, 3, [b, c, d, j, k, l, n, o, p]⟩ := by
  norm_num [Matrix.submatrix, Matrix.subIdx, Matrix.mk4, List.filter, List.range_succ]


lemma sub4_11 (a b c d e f g h i j k l m n o p : ℝ) :
    Matrix.submatrix (Matrix.mk4 a b c d e f g h i j k l m n o p) 1 1 =
      ⟨3, 3, [a, c, d, i, k, l, m, o, p]⟩ := by
  norm_num [Matrix.submatrix, Matrix.subIdx, Matrix.mk4, List.filter, List.range_succ]


lemma sub4_12 (a b c d e f g h i j k l m n o p : ℝ) :
    Matrix.submatrix (Matrix.mk4 a b c d e f g h i j k l m n o p) 1 2 =
      ⟨3, 3, [a, b, d, i, j, l, m, n, p]⟩ := by
  norm_num [Matrix.submatrix, Matrix.subIdx, Matrix.mk4, List.filter, List.range_succ]


lemma sub4_13 (a b c d e f g h i j k l m n o p : ℝ) :
    Matrix.submatrix (Matrix.mk4 a b c d e f g h i j k l m n o p) 1 3 =
      ⟨3, 3, [a, b, c, i, j, k, m, n, o]⟩ := by
  norm_num [Matrix.submatrix, Matrix.subIdx, Matrix.mk4, List.filter, List.range_succ]


lemma sub4_20 (a b c d e f g h i j k l m n o p : ℝ) :
    Matrix.submatrix (Matrix.mk4 a b c d e f g h i j k l m n o p) 2 0 =
      ⟨3, 3, [b, c, d, f, g, h, n, o, p]⟩ := by
  norm_num [Matrix.submatrix, Matrix.subIdx, Matrix.mk4, List.filter, List.range_succ]


lemma sub4_21 (a b c d e f g h i j k l m n o p : ℝ) :
    Matrix.submatrix (Matrix.mk4 a b c d e f g h i j k l m n o p) 2 1 =
      ⟨3, 3, [a, c, d, e, g, h, m, o, p]⟩ := by
  norm_num [Matrix.submatrix, Matrix.subIdx, Matrix.mk4, List.filter, List.range_succ]


lemma sub4_22 (a b c d e f g h i j k l m n o p : ℝ) :
    Matrix.submatrix (Matrix.mk4 a b c d e f g h i j k l m n o p) 2 2 =
      ⟨3, 3, [a, b, d, e, f, h, m, n, p]⟩ := by
  norm_num [Matrix.submatrix, Matrix.subIdx, Matrix.mk4, List.filter, List.range_succ]


lemma sub4_23 (a b c d e f g h i j k l m n o p : ℝ) :
    Matrix.submatrix (Matrix.mk4 a b c d e f g h i j k l m n o p) 2 3 =
      ⟨3, 3, [a, b, c, e, f, g, m, n, o]⟩ := by
  norm_num [Matrix.submatrix, Matrix.subIdx, Matrix.mk4, List.filter, List.range_succ]


lemma sub4_30 (a b c d e f g h i j k l m n o p : ℝ) :
    Matrix.submatrix (Matrix.mk4 a b c d e f g h i j k l m n o p) 3 0 =
      ⟨3, 3, [b, c, d, f, g, h, j, k, l]⟩ := by
  norm_num [Matrix.submatrix, Matrix.subIdx, Matrix.mk4, List.filter, List.range_succ]


lemma sub4_31 (a b c d e f g h i j k l m n o p : ℝ) :
    Matrix.submatrix (Matrix.mk4 a b c d e f g h i j k l m n o p) 3 1 =
      ⟨3, 3, [a, c, d, e, g, h, i, k, l]⟩ := by
  norm_num [Matrix.submatrix, Matrix.subIdx, Matrix.mk4, List.filter, List.range_succ]


lemma sub4_32 (a b c d e f g h i j k l m n o p : ℝ) :
    Matrix.submatrix (Matrix.mk4 a b c d e f g h i j k l m n o p) 3 2 =
      ⟨3, 3, [a, b, d, e, f, h, i, j, l]⟩ := by
  norm_num [Matrix.submatrix, Matrix.subIdx, Matrix.mk4, List.filter, List.range_succ]


lemma sub4_33 (a b c d e f g h i j k l m n o p : ℝ) :
    Matrix.submatrix (Matrix.mk4 a b c d e f g h i j k l m n o p) 3 3 =
      ⟨3, 3, [a, b, c, e, f, g, i, j, k]⟩ := by
  norm_num [Matrix.submatrix, Matrix.subIdx, Matrix.mk4, List.filter, List.range_succ]


lemma cof4_00 (a b c d e f g h i j k l m n o p : ℝ) :
    Matrix.cofactor (Matrix.mk4 a b c d e f g h i j k l m n o p) 0 0 =
      (f * (k * p - l * o) - g * (j * p - l * n) + h * (j * o - k * n)) := by
  simp only [Matrix.cofactor, Matrix.minor, sub4_00, det_three]
  norm_num


lemma cof4_01 (a b c d e f g h i j k l m n o p : ℝ) :
    Matrix.cofactor (Matrix.mk4 a b c d e f g h i j k l m n o p) 0 1 =
      -(e * (k * p - l * o) - g * (i * p - l * m) + h * (i * o - k * m)) := by
  simp only [Matrix.cofactor, Matrix.minor, sub4_01, det_three]
  norm_num


lemma cof4_02 (a b c d e f g h i j k l m n o p : ℝ) :
    Matrix.cofactor (Matrix.mk4 a b c d e f g h i j k l m n o p) 0 2 =
      (e * (j * p - l * n) - f * (i * p - l * m) + h * (i * n - j * m)) := by
  simp only [Matrix.cofactor, Matrix.minor, sub4_02, det_three]
  norm_num


lemma cof4_03 (a b c d e f g h i j k l m n o p : ℝ) :
    Matrix.cofactor (Matrix.mk4 a b c d e f g h i j k l m n o p) 0 3 =
      -(e * (j * o - k * n) - f * (i * o - k * m) + g * (i * n - j * m)) := by
  simp only [Matrix.cofactor, Matrix.minor, sub4_03, det_three]
  norm_num


lemma cof4_10 (a b c d e f g h i j k l m n o p : ℝ) :
    Matrix.cofactor (Matrix.mk4 a b c d e f g h i j k l m n o p) 1 0 =
      -(b * (k * p - l * o) - c * (j * p - l * n) + d * (j * o - k * n)) := by
  simp only [Matrix.cofactor, Matrix.minor, sub4_10, det_three]
  norm_num


lemma cof4_11 (a b c d e f g h i j k l m n o p : ℝ) :
    Matrix.cofactor (Matrix.mk4 a b c d e f g h i j k l m n o p) 1 1 =
      (a * (k * p - l * o) - c * (i * p - l * m) + d * (i * o - k * m)) := by
  simp only [Matrix.cofactor, Matrix.minor, sub4_11, det_three]
  norm_num


lemma cof4_12 (a b c d e f g h i j k l m n o p : ℝ) :
    Matrix.cofactor (Matrix.mk4 a b c d e f g h i j k l m n o p) 1 2 =
      -(a * (j * p - l * n) - b * (i * p - l * m) + d * (i * n - j * m)) := by
  simp only [Matrix.cofactor, Matrix.minor, sub4_12, det_three]
  norm_num


lemma cof4_13 (a b c d e f g h i j k l m n o p : ℝ) :
    Matrix.cofactor (Matrix.mk4 a b c d e f g h i j k l m n o p) 1 3 =
      (a * (j * o - k * n) - b * (i * o - k * m) + c * (i * n - j * m)) := by
  simp only [Matrix.cofactor, Matrix.minor, sub4_13, det_three]
  norm_num


lemma cof4_20 (a b c d e f g h i j k l m n o p : ℝ) :
    Matrix.cofactor (Matrix.mk4 a b c d e f g h i j k l m n o p) 2 0 =
      (b * (g * p - h * o) - c * (f * p - h * n) + d * (f * o - g * n)) := by
  simp only [Matrix.cofactor, Matrix.minor, sub4_20, det_three]
  norm_num


lemma cof4_21 (a b c d e f g h i j k l m n o p : ℝ) :
    Matrix.cofactor (Matrix.mk4 a b c d e f g h i j k l m n o p) 2 1 =
      -(a * (g * p - h * o) - c * (e * p - h * m) + d * (e * o - g * m)) := by
  simp only [Matrix.cofactor, Matrix.minor, sub4_21, det_three]
  norm_num


lemma cof4_22 (a b c d e f g h i j k l m n o p : ℝ) :
    Matrix.cofactor (Matrix.mk4 a b c d e f g h i j k l m n o p) 2 2 =
      (a * (f * p - h * n) - b * (e * p - h * m) + d * (e * n - f * m)) := by
  simp only [Matrix.cofactor, Matrix.minor, sub4_22, det_three]
  norm_num


lemma cof4_23 (a b c d e f g h i j k l m n o p : ℝ) :
    Matrix.cofactor (Matrix.mk4 a b c d e f g h i j k l m n o p) 2 3 =
      -(a * (f * o - g * n) - b * (e * o - g * m) + c * (e * n - f * m)) := by
  simp only [Matrix.cofactor, Matrix.minor, sub4_23, det_three]
  norm_num


lemma cof4_30 (a b c d e f g h i j k l m n o p : ℝ) :
    Matrix.cofactor (Matrix.mk4 a b c d e f g h i j k l m n o p) 3 0 =
      -(b * (g * l - h * k) - c * (f * l - h * j) + d * (f * k - g * j)) := by
  simp only [Matrix.cofactor, Matrix.minor, sub4_30, det_three]
  norm_num


lemma cof4_31 (a b c d e f g h i j k l m n o p : ℝ) :
    Matrix.cofactor (Matrix.mk4 a b c d e f g h i j k l m n o p) 3 1 =
      (a * (g * l - h * k) - c * (e * l - h * i) + d * (e * k - g * i)) := by
  simp only [Matrix.cofactor, Matrix.minor, sub4_31, det_three]
  norm_num


lemma cof4_32 (a b c d e f g h i j k l m n o p : ℝ) :
    Matrix.cofactor (Matrix.mk4 a b c d e f g h i j k l m n o p) 3 2 =
      -(a * (f * l - h * j) - b * (e * l - h * i) + d * (e * j - f * i)) := by
  simp only [Matrix.cofactor, Matrix.minor, sub4_32, det_three]
  norm_num


lemma cof4_33 (a b c d e f g h i j k l m n o p : ℝ) :
    Matrix.cofactor (Matrix.mk4 a b c d e f g h i j k l m n o p) 3 3 =
      (a * (f * k - g * j) - b * (e * k - g * i) + c * (e * j - f * i)) := by
  simp only [Matrix.cofactor, Matrix.minor, sub4_33, det_three]
  norm_num


lemma det_four (a b c d e f g h i j k l m n o p : ℝ) :
    Matrix.determinant (Matrix.mk4 a b c d e f g h i j k l m n o p) =
      a * (f * (k * p - l * o) - g * (j * p - l * n) + h * (j * o - k * n)) - b * (e * (k * p - l * o) - g * (i * p - l * m) + h * (i * o - k * m)) + c * (e * (j * p - l * n) - f * (i * p - l * m) + h * (i * n - j * m)) - d * (e * (j * o - k * n) - f * (i * o - k * m) + g * (i * n - j * m)) := by
  show Matrix.detFuel 4 _ = _
  rw [detFuel4]
  norm_num [mk4_row, mk4_col, List.range_succ]
  rw [sub4_00, sub4_01, sub4_02, sub4_03]
  norm_num [det_three_fuel, Matrix.getE, mk4_grid, mk4_col]
  ring

lemma mul_eval (A B : Matrix) :
    mul A B = ⟨4, 4, [Matrix.mulEntry A B 0 0, Matrix.mulEntry A B 0 1, Matrix.mulEntry A B 0 2, Matrix.mulEntry A B 0 3, Matrix.mulEntry A B 1 0, Matrix.mulEntry A B 1 1, Matrix.mulEntry A B 1 2, Matrix.mulEntry A B 1 3, Matrix.mulEntry A B 2 0, Matrix.mulEntry A B 2 1, Matrix.mulEntry A B 2 2, Matrix.mulEntry A B 2 3, Matrix.mulEntry A B 3 0, Matrix.mulEntry A B 3 1, Matrix.mulEntry A B 3 2, Matrix.mulEntry A B 3 3]⟩ := rfl

lemma invBody_mk4 (a b c d e f g h i j k l m n o p : ℝ) :
    inverseBody (mk4 a b c d e f g h i j k l m n o p) =
      mk4 (Matrix.cofactor (Matrix.mk4 a b c d e f g h i j k l m n o p) 0 0 / Matrix.determinant (Matrix.mk4 a b c d e f g h i j k l m n o p))
      (Matrix.cofactor (Matrix.mk4 a b c d e f g h i j k l m n o p) 1 0 / Matrix.determinant (Matrix.mk4 a b c d e f g h i j k l m n o p))
      (Matrix.cofactor (Matrix.mk4 a b c d e f g h i j k l m n o p) 2 0 / Matrix.determinant (Matrix.mk4 a b c d e f g h i j k l m n o p))
      (Matrix.cofactor (Matrix.mk4 a b c d e f g h i j k l m n o p) 3 0 / Matrix.determinant (Matrix.mk4 a b c d e f g h i j k l m n o p))
      (Matrix.cofactor (Matrix.mk4 a b c d e f g h i j k l m n o p) 0 1 / Matrix.determinant (Matrix.mk4 a b c d e f g h i j k l m n o p))
      (Matrix.cofactor (Matrix.mk4 a b c d e f g h i j k l m n o p) 1 1 / Matrix.determinant (Matrix.mk4 a b c d e f g h i j k l m n o p))
      (Matrix.cofactor (Matrix.mk4 a b c d e f g h i j k l m n o p) 2 1 / Matrix.determinant (Matrix.mk4 a b c d e f g h i j k l m n o p))
      (Matrix.cofactor (Matrix.mk4 a b c d e f g h i j k l m n o p) 3 1 / Matrix.determinant (Matrix.mk4 a b c d e f g h i j k l m n o p))
      (Matrix.cofactor (Matrix.mk4 a b c d e f g h i j k l m n o p) 0 2 / Matrix.determinant (Matrix.mk4 a b c d e f g h i j k l m n o p))
      (Matrix.cofactor (Matrix.mk4 a b c d e f g h i j k l m n o p) 1 2 / Matrix.determinant (Matrix.mk4 a b c d e f g h i j k l m n o p))
      (Matrix.cofactor (Matrix.mk4 a b c d e f g h i j k l m n o p) 2 2 / Matrix.determinant (Matrix.mk4 a b c d e f g h i j k l m n o p))
      (Matrix.cofactor (Matrix.mk4 a b c d e f g h i j k l m n o p) 3 2 / Matrix.determinant (Matrix.mk4 a b c d e f g h i j k l m n o p))
      (Matrix.cofactor (Matrix.mk4 a b c d e f g h i j k l m n o p) 0 3 / Matrix.determinant (Matrix.mk4 a b c d e f g h i j k l m n o p))
      (Matrix.cofactor (Matrix.mk4 a b c d e f g h i j k l m n o p) 1 3 / Matrix.determinant (Matrix.mk4 a b c d e f g h i j k l m n o p))
      (Matrix.cofactor (Matrix.mk4 a b c d e f g h i j k l m n o p) 2 3 / Matrix.determinant (Matrix.mk4 a b c d e f g h i j k l m n o p))
      (Matrix.cofactor (Matrix.mk4 a b c d e f g h i j k l m n o p) 3 3 / Matrix.determinant (Matrix.mk4 a b c d e f g h i j k l m n o p)) := by
  norm_num [inverseBody, Matrix.mk4, List.range_succ]

set_option maxHeartbeats 3000000 in
lemma mul_inverseBody (a b c d e f g h i j k l m n o p : ℝ)
    (hd : Matrix.determinant (Matrix.mk4 a b c d e f g h i j k l m n o p) ≠ 0) :
    mul (mk4 a b c d e f g h i j k l m n o p) (inverseBody (mk4 a b c d e f g h i j k l m n o p)) = identity := by
  rw [mul_eval, invBody_mk4]
  rw [det_four] at hd
  simp only [mulEntry, Matrix.getE, mk4_grid, mk4_col, cof4_00, cof4_01, cof4_02, cof4_03, cof4_10, cof4_11, cof4_12, cof4_13, cof4_20, cof4_21, cof4_22, cof4_23, cof4_30, cof4_31, cof4_32, cof4_33, det_four, identity,
    Matrix.mk.injEq, List.cons.injEq]
  norm_num
  refine ⟨?_, ?_, ?_, ?_, ?_, ?_, ?_, ?_, ?_, ?_, ?_, ?_, ?_, ?_, ?_, ?_⟩ <;>
    · field_simp
      ring

lemma exists16 (l : List ℝ) (h : l.length = 16) :
    ∃ x0 x1 x2 x3 x4 x5 x6 x7 x8 x9 x10 x11 x12 x13 x14 x15, l = [x0, x1, x2, x3, x4, x5, x6, x7, x8, x9, x10, x11, x12, x13, x14, x15] := by
  rcases l with _ | ⟨x0, _ | ⟨x1, _ | ⟨x2, _ | ⟨x3, _ | ⟨x4, _ | ⟨x5, _ | ⟨x6, _ | ⟨x7, _ | ⟨x8, _ | ⟨x9, _ | ⟨x10, _ | ⟨x11, _ | ⟨x12, _ | ⟨x13, _ | ⟨x14, _ | ⟨x15, _ | ⟨x16, t⟩⟩⟩⟩⟩⟩⟩⟩⟩⟩⟩⟩⟩⟩⟩⟩⟩ <;>
    first
      | exact ⟨x0, x1, x2, x3, x4, x5, x6, x7, x8, x9, x10, x11, x12, x13, x14, x15, rfl⟩
      | simp_all

lemma mul_id_left (a0 a1 a2 a3 a4 a5 a6 a7 a8 a9 a10 a11 a12 a13 a14 a15 : ℝ) :
    mul identity (mk4 a0 a1 a2 a3 a4 a5 a6 a7 a8 a9 a10 a11 a12 a13 a14 a15) = mk4 a0 a1 a2 a3 a4 a5 a6 a7 a8 a9 a10 a11 a12 a13 a14 a15 := by
  rw [mul_eval]
  simp only [mulEntry, Matrix.getE, identity, mk4_grid, mk4_col, Matrix.mk4]
  norm_num

lemma mul_id_right (a0 a1 a2 a3 a4 a5 a6 a7 a8 a9 a10 a11 a12 a13 a14 a15 : ℝ) :
    mul (mk4 a0 a1 a2 a3 a4 a5 a6 a7 a8 a9 a10 a11 a12 a13 a14 a15) identity = mk4 a0 a1 a2 a3 a4 a5 a6 a7 a8 a9 a10 a11 a12 a13 a14 a15 := by
  rw [mul_eval]
  simp only [mulEntry, Matrix.getE, identity, mk4_grid, mk4_col, Matrix.mk4]
  norm_num

set_option maxHeartbeats 2000000 in
lemma mul_assoc4 (a0 a1 a2 a3 a4 a5 a6 a7 a8 a9 a10 a11 a12 a13 a14 a15 b0 b1 b2 b3 b4 b5 b6 b7 b8 b9 b10 b11 b12 b13 b14 b15 c0 c1 c2 c3 c4 c5 c6 c7 c8 c9 c10 c11 c12 c13 c14 c15 : ℝ) :
    mul (mul (mk4 a0 a1 a2 a3 a4 a5 a6 a7 a8 a9 a10 a11 a12 a13 a14 a15) (mk4 b0 b1 b2 b3 b4 b5 b6 b7 b8 b9 b10 b11 b12 b13 b14 b15)) (mk4 c0 c1 c2 c3 c4 c5 c6 c7 c8 c9 c10 c11 c12 c13 c14 c15) =
      mul (mk4 a0 a1 a2 a3 a4 a5 a6 a7 a8 a9 a10 a11 a12 a13 a14 a15) (mul (mk4 b0 b1 b2 b3 b4 b5 b6 b7 b8 b9 b10 b11 b12 b13 b14 b15) (mk4 c0 c1 c2 c3 c4 c5 c6 c7 c8 c9 c10 c11 c12 c13 c14 c15)) := by
  simp only [mul_eval, mulEntry, Matrix.getE, mk4_grid, mk4_col, Matrix.mk.injEq,
    List.cons.injEq]
  norm_num
  refine ⟨?_, ?_, ?_, ?_, ?_, ?_, ?_, ?_, ?_, ?_, ?_, ?_, ?_, ?_, ?_, ?_⟩ <;> ring

lemma approxEq_refl (m : Matrix) : approxEq m m := by
  refine ⟨rfl, rfl, fun i _ => ?_⟩
  simp [fp_equal, epsilon]

lemma isMk4_invBody (m : Matrix) (hm : isMk4 m) : isMk4 m.inverseBody := by
  obtain ⟨x0, x1, x2, x3, x4, x5, x6, x7, x8, x9, x10, x11, x12, x13, x14, x15, rfl⟩ := hm
  rw [invBody_mk4]
  exact ⟨_, _, _, _, _, _, _, _, _, _, _, _, _, _, _, _, rfl⟩

lemma mulInv (m : Matrix) (hm : isMk4 m) (hd : m.determinant ≠ 0) :
    mul m m.inverseBody = identity := by
  obtain ⟨x0, x1, x2, x3, x4, x5, x6, x7, x8, x9, x10, x11, x12, x13, x14, x15, rfl⟩ := hm
  exact mul_inverseBody x0 x1 x2 x3 x4 x5 x6 x7 x8 x9 x10 x11 x12 x13 x14 x15 hd

lemma idLeft (m : Matrix) (hm : isMk4 m) : mul identity m = m := by
  obtain ⟨x0, x1, x2, x3, x4, x5, x6, x7, x8, x9, x10, x11, x12, x13, x14, x15, rfl⟩ := hm
  exact mul_id_left x0 x1 x2 x3 x4 x5 x6 x7 x8 x9 x10 x11 x12 x13 x14 x15

lemma idRight (m : Matrix) (hm : isMk4 m) : mul m identity = m := by
  obtain ⟨x0, x1, x2, x3, x4, x5, x6, x7, x8, x9, x10, x11, x12, x13, x14, x15, rfl⟩ := hm
  exact mul_id_right x0 x1 x2 x3 x4 x5 x6 x7 x8 x9 x10 x11 x12 x13 x14 x15

lemma mulAssoc (x y z : Matrix) (hx : isMk4 x) (hy : isMk4 y) (hz : isMk4 z) :
    mul (mul x y) z = mul x (mul y z) := by
  obtain ⟨a0, a1, a2, a3, a4, a5, a6, a7, a8, a9, a10, a11, a12, a13, a14, a15, rfl⟩ := hx
  obtain ⟨b0, b1, b2, b3, b4, b5, b6, b7, b8, b9, b10, b11, b12, b13, b14, b15, rfl⟩ := hy
  obtain ⟨c0, c1, c2, c3, c4, c5, c6, c7, c8, c9, c10, c11, c12, c13, c14, c15, rfl⟩ := hz
  exact mul_assoc4 a0 a1 a2 a3 a4 a5 a6 a7 a8 a9 a10 a11 a12 a13 a14 a15 b0 b1 b2 b3 b4 b5 b6 b7 b8 b9 b10 b11 b12 b13 b14 b15 c0 c1 c2 c3 c4 c5 c6 c7 c8 c9 c10 c11 c12 c13 c14 c15

lemma wf4_isMk4 (m : Matrix) (hm : wf4 m) : isMk4 m := by
  obtain ⟨mr, mc, mg⟩ := m
  obtain ⟨h1, h2, h3⟩ := hm
  subst h1; subst h2
  obtain ⟨x0, x1, x2, x3, x4, x5, x6, x7, x8, x9, x10, x11, x12, x13, x14, x15, rfl⟩ := exists16 mg h3
  exact ⟨_, _, _, _, _, _, _, _, _, _, _, _, _, _, _, _, rfl⟩

lemma not_fp_equal_zero_ne (d : ℝ) (h : ¬ fp_equal d 0) : d ≠ 0 := by
  intro h0
  exact h (by simp [h0, fp_equal, epsilon])

lemma scaling_mk4 (x y z : ℝ) : scaling x y z = mk4 x 0 0 0 0 y 0 0 0 0 z 0 0 0 0 1 := rfl

lemma det_scaling (x y z : ℝ) : (scaling x y z).determinant = x * y * z := by
  rw [scaling_mk4, det_four]
  ring


end Matrix

end RT

/-! ## Claims C1, C5, C6, C10. -/

namespace RT

set_option maxHeartbeats 1000000

/-- C1: the claim states that adding a vector V to a point P yields the
component-wise sum and that `(P + V) - V` recovers a point approximately equal
to P.  The source of `impl Add<Vector> for Point` subtracts the y and z
components, so at P = (3,2,1), V = (5,6,7) the code computes
P + V = (8,−4,−6) rather than (8,8,8), and the round trip yields (3,−10,−13),
which is not approximately P (the y components differ by 12 ≫ ε). -/
theorem C1_point_add_vector_bug :
    Point.addVector ⟨3, 2, 1⟩ ⟨5, 6, 7⟩ = ⟨8, -4, -6⟩ ∧
    Point.subVector (Point.addVector ⟨3, 2, 1⟩ ⟨5, 6, 7⟩) ⟨5, 6, 7⟩ = ⟨3, -10, -13⟩ ∧
    ¬ Point.approxEq (Point.subVector (Point.addVector ⟨3, 2, 1⟩ ⟨5, 6, 7⟩) ⟨5, 6, 7⟩)
      ⟨3, 2, 1⟩ := by
  refine ⟨by norm_num [Point.addVector], by norm_num [Point.addVector, Point.subVector], ?_⟩
  intro h
  have hy := h.2.1
  rw [Point.addVector, Point.subVector] at hy
  simp only [fp_equal, epsilon] at hy
  norm_num at hy

/-- C5: `Matrix::inverse` fails (the `assert!(self.invertible())`) exactly when
the determinant is within epsilon of zero, and otherwise returns the matrix
whose entry at position (col, row) is `cofactor(row, col) / determinant`. -/
theorem C5_inverse_contract (m : Matrix) (hm : Matrix.wf4 m) :
    (Matrix.inverse m = none ↔ fp_equal m.determinant 0) ∧
    ∀ n, Matrix.inverse m = some n → ∀ r c, r < 4 → c < 4 →
      n.getE c r = m.cofactor r c / m.determinant := by
  obtain ⟨hrow, hcol, hlen⟩ := hm
  constructor
  · by_cases h : fp_equal m.determinant 0 <;> simp [Matrix.inverse, h]
  · intro n hn r c hr hc
    by_cases h : fp_equal m.determinant 0
    · simp [Matrix.inverse, h] at hn
    · simp only [Matrix.inverse, if_neg h, Option.some.injEq] at hn
      subst hn
      simp only [Matrix.getE, Matrix.inverseBody, hrow, hcol]
      have hlt : c * 4 + r < (List.range (4 * 4)).length := by
        rw [List.length_range]; omega
      rw [List.getD_eq_getElem _ _ (by simpa using hlt), List.getElem_map,
        List.getElem_range]
      have h1 : (c * 4 + r) % 4 = r := by omega
      have h2 : (c * 4 + r) / 4 = c := by omega
      rw [h1, h2]

/-- Witness for C5 at the identity matrix. -/
theorem C5_witness :
    Matrix.wf4 Matrix.identity ∧
    ((Matrix.inverse Matrix.identity = none ↔ fp_equal (Matrix.identity).determinant 0) ∧
     ∀ n, Matrix.inverse Matrix.identity = some n → ∀ r c, r < 4 → c < 4 →
       n.getE c r = (Matrix.identity).cofactor r c / (Matrix.identity).determinant) :=
  ⟨⟨rfl, rfl, rfl⟩, C5_inverse_contract Matrix.identity ⟨rfl, rfl, rfl⟩⟩

/-- C6 counterexample: the claim quantifies over every invertible matrix, but
for `scaling(50,50,50)` (invertible: determinant 125000) the inverse has
determinant 1/125000 = 0.000008, which `fp_equal` treats as zero, so
`inverse().inverse()` fails its invertibility assertion instead of returning
a matrix approximately equal to the original. -/
theorem C6_counterexample :
    Matrix.invertible (Matrix.scaling 50 50 50) ∧
    Matrix.inverse (Matrix.scaling 50 50 50) =
      some (Matrix.scaling (1/50) (1/50) (1/50)) ∧
    Matrix.inverse (Matrix.scaling (1/50) (1/50) (1/50)) = none := by
  have h1 : Matrix.invertible (Matrix.scaling 50 50 50) := by
    simp [Matrix.invertible, Matrix.det_scaling, fp_equal, epsilon]
    norm_num
  refine ⟨h1, ?_, ?_⟩
  · rw [Matrix.inverse, if_neg h1]
    congr 1
    rw [Matrix.scaling_mk4, Matrix.invBody_mk4]
    rw [Matrix.scaling_mk4 (1/50)]
    simp only [Matrix.cof4_00, Matrix.cof4_01, Matrix.cof4_02, Matrix.cof4_03,
      Matrix.cof4_10, Matrix.cof4_11, Matrix.cof4_12, Matrix.cof4_13,
      Matrix.cof4_20, Matrix.cof4_21, Matrix.cof4_22, Matrix.cof4_23,
      Matrix.cof4_30, Matrix.cof4_31, Matrix.cof4_32, Matrix.cof4_33,
      Matrix.det_four]
    simp only [Matrix.mk4, Matrix.mk.injEq, List.cons.injEq]
    norm_num
  · have h2 : fp_equal (Matrix.scaling (1/50) (1/50) (1/50)).determinant 0 := by
      rw [Matrix.det_scaling, fp_equal, epsilon, sub_zero, abs_of_pos] <;> norm_num
    rw [Matrix.inverse, if_pos h2]

/-- C6 (amended): for every well-formed 4×4 matrix M that is invertible,
`inverse` succeeds, `M * M.inverse()` is approximately (indeed exactly) the
identity, and — when the inverse itself passes the invertibility check, which
fails for |det M| > 1/ε — `M.inverse().inverse()` is approximately M. -/
theorem C6_inverse_roundtrip (m : Matrix) (hm : Matrix.wf4 m)
    (hinv : Matrix.invertible m) :
    ∃ n, Matrix.inverse m = some n ∧
      Matrix.approxEq (Matrix.mul m n) Matrix.identity ∧
      ∀ m2, Matrix.inverse n = some m2 → Matrix.approxEq m2 m := by
  have hM : Matrix.isMk4 m := Matrix.wf4_isMk4 m hm
  have hd : m.determinant ≠ 0 := Matrix.not_fp_equal_zero_ne _ hinv
  have hfp : ¬ fp_equal m.determinant 0 := hinv
  refine ⟨m.inverseBody, by simp only [Matrix.inverse, if_neg hfp], ?_, ?_⟩
  · rw [Matrix.mulInv m hM hd]
    exact Matrix.approxEq_refl Matrix.identity
  · intro m2 hm2
    have hN : Matrix.isMk4 m.inverseBody := Matrix.isMk4_invBody m hM
    by_cases hE : fp_equal m.inverseBody.determinant 0
    · simp [Matrix.inverse, hE] at hm2
    · simp only [Matrix.inverse, if_neg hE, Option.some.injEq] at hm2
      subst hm2
      have hdN : m.inverseBody.determinant ≠ 0 := Matrix.not_fp_equal_zero_ne _ hE
      have hM2 : Matrix.isMk4 m.inverseBody.inverseBody := Matrix.isMk4_invBody _ hN
      have hMN : Matrix.mul m m.inverseBody = Matrix.identity := Matrix.mulInv m hM hd
      have hNM2 : Matrix.mul m.inverseBody m.inverseBody.inverseBody = Matrix.identity :=
        Matrix.mulInv _ hN hdN
      have key : m.inverseBody.inverseBody = m := by
        calc m.inverseBody.inverseBody
            = Matrix.mul Matrix.identity m.inverseBody.inverseBody :=
              (Matrix.idLeft _ hM2).symm
          _ = Matrix.mul (Matrix.mul m m.inverseBody) m.inverseBody.inverseBody := by
              rw [hMN]
          _ = Matrix.mul m (Matrix.mul m.inverseBody m.inverseBody.inverseBody) :=
              Matrix.mulAssoc _ _ _ hM hN hM2
          _ = Matrix.mul m Matrix.identity := by rw [hNM2]
          _ = m := Matrix.idRight m hM
      rw [key]
      exact Matrix.approxEq_refl m

/-- Witness for the amended C6 at the identity matrix. -/
theorem C6_witness :
    Matrix.wf4 Matrix.identity ∧ Matrix.invertible Matrix.identity ∧
    ∃ n, Matrix.inverse Matrix.identity = some n ∧
      Matrix.approxEq (Matrix.mul Matrix.identity n) Matrix.identity ∧
      ∀ m2, Matrix.inverse n = some m2 → Matrix.approxEq m2 Matrix.identity := by
  have hinv : Matrix.invertible Matrix.identity := by
    have : (Matrix.identity).determinant = 1 := by
      rw [show Matrix.identity = Matrix.mk4 1 0 0 0 0 1 0 0 0 0 1 0 0 0 0 1 from rfl,
        Matrix.det_four]
      norm_num
    simp [Matrix.invertible, this, fp_equal, epsilon]
    norm_num
  exact ⟨⟨rfl, rfl, rfl⟩, hinv, C6_inverse_roundtrip Matrix.identity ⟨rfl, rfl, rfl⟩ hinv⟩

/-- C10 counterexample: on `Matrix::new(4, 4)`, the access `get(0, 4)` has
col equal to the stored dimension; it passes the guard (which only rejects
`col > self.col`), and its flat index 0*4+4 = 4 is still inside the backing
vector, so the access SUCCEEDS — returning the slot of entry (1, 0) — rather
than being caught by the vector indexing. -/
theorem C10_counterexample :
    Matrix.get? (Matrix.new 4 4) 0 4 = some 0 ∧
    (Matrix.get? (Matrix.new 4 4) 0 4).isSome = true ∧ ¬ (4 < 4) := by
  refine ⟨?_, ?_, by norm_num⟩ <;> rfl

lemma list_isSome_get? (l : List ℝ) (n : ℕ) :
    (l.get? n).isSome = true ↔ n < l.length := by
  rw [List.get?_eq_getElem?]
  constructor
  · intro h
    by_contra hlt
    rw [List.getElem?_eq_none (by omega)] at h
    simp at h
  · intro h
    simp [List.getElem?_eq_getElem h]

/-- C10 (amended): the guards reject an index only when it strictly exceeds
the stored dimension; past the guard, the access is checked only by the flat
index `row * col + col` against the backing vector length, so `get`/`set`
succeed iff `row ≤ r ∧ col ≤ c ∧ row * c + col < r * c`.  In particular every
in-range access (`row < r ∧ col < c`) succeeds; an access with `row = r` is
caught by the vector indexing, but an access with `col = c` and `row < r − 1`
succeeds and silently reads or writes a cell of the next row. -/
theorem C10_bounds (m : Matrix) (hm : m.grid.length = m.row * m.col) (r c : ℕ) :
    ((Matrix.get? m r c).isSome ↔
      r ≤ m.row ∧ c ≤ m.col ∧ r * m.col + c < m.row * m.col) ∧
    ((Matrix.set? m r c 0).isSome ↔
      r ≤ m.row ∧ c ≤ m.col ∧ r * m.col + c < m.row * m.col) ∧
    (r < m.row ∧ c < m.col → (Matrix.get? m r c).isSome) := by
  have hget : (Matrix.get? m r c).isSome ↔
      r ≤ m.row ∧ c ≤ m.col ∧ r * m.col + c < m.row * m.col := by
    rw [Matrix.get?]
    by_cases h : r ≤ m.row ∧ c ≤ m.col
    · rw [if_pos h]
      rw [list_isSome_get?, hm]
      tauto
    · rw [if_neg h]
      simp only [Option.isSome_none, Bool.false_eq_true, false_iff]
      tauto
  have hinrange : r < m.row ∧ c < m.col →
      r ≤ m.row ∧ c ≤ m.col ∧ r * m.col + c < m.row * m.col := by
    rintro ⟨h1, h2⟩
    refine ⟨h1.le, h2.le, ?_⟩
    calc r * m.col + c < r * m.col + m.col := by omega
      _ = (r + 1) * m.col := by ring
      _ ≤ m.row * m.col := Nat.mul_le_mul_right _ h1
  refine ⟨hget, ?_, fun h => hget.2 (hinrange h)⟩
  rw [Matrix.set?]
  by_cases h : r ≤ m.row ∧ c ≤ m.col
  · rw [if_pos h, hm]
    by_cases h2 : r * m.col + c < m.row * m.col
    · simp only [if_pos h2, Option.isSome_some, true_iff]
      tauto
    · simp only [if_neg h2, Option.isSome_none, Bool.false_eq_true, false_iff]
      tauto
  · rw [if_neg h]
    simp only [Option.isSome_none, Bool.false_eq_true, false_iff]
    tauto

/-- Witness for the amended C10 on a 4×4 zero matrix at an in-range index. -/
theorem C10_witness :
    (Matrix.new 4 4).grid.length = (Matrix.new 4 4).row * (Matrix.new 4 4).col ∧
    (((Matrix.get? (Matrix.new 4 4) 1 2).isSome ↔
        1 ≤ (Matrix.new 4 4).row ∧ 2 ≤ (Matrix.new 4 4).col ∧
        1 * (Matrix.new 4 4).col + 2 < (Matrix.new 4 4).row * (Matrix.new 4 4).col) ∧
      ((Matrix.set? (Matrix.new 4 4) 1 2 0).isSome ↔
        1 ≤ (Matrix.new 4 4).row ∧ 2 ≤ (Matrix.new 4 4).col ∧
        1 * (Matrix.new 4 4).col + 2 < (Matrix.new 4 4).row * (Matrix.new 4 4).col) ∧
      (1 < (Matrix.new 4 4).row ∧ 2 < (Matrix.new 4 4).col →
        (Matrix.get? (Matrix.new 4 4) 1 2).isSome)) :=
  ⟨by simp [Matrix.new], C10_bounds (Matrix.new 4 4) (by simp [Matrix.new]) 1 2⟩

end RT

/-! ## Evaluation helpers: identity matrix, square roots, normalization. -/

namespace RT

set_option maxHeartbeats 1000000

lemma identity_mk4 : Matrix.identity = Matrix.mk4 1 0 0 0 0 1 0 0 0 0 1 0 0 0 0 1 := rfl

lemma det_identity : Matrix.identity.determinant = 1 := by
  rw [identity_mk4, Matrix.det_four]; norm_num

lemma inverse_identity : Matrix.inverse Matrix.identity = some Matrix.identity := by
  have h1 : ¬ fp_equal Matrix.identity.determinant 0 := by
    rw [det_identity]; norm_num [fp_equal, epsilon]
  rw [Matrix.inverse, if_neg h1]
  congr 1
  rw [identity_mk4, Matrix.invBody_mk4]
  simp only [Matrix.cof4_00, Matrix.cof4_01, Matrix.cof4_02, Matrix.cof4_03,
    Matrix.cof4_10, Matrix.cof4_11, Matrix.cof4_12, Matrix.cof4_13,
    Matrix.cof4_20, Matrix.cof4_21, Matrix.cof4_22, Matrix.cof4_23,
    Matrix.cof4_30, Matrix.cof4_31, Matrix.cof4_32, Matrix.cof4_33,
    Matrix.det_four]
  simp only [Matrix.mk4, Matrix.mk.injEq, List.cons.injEq]
  norm_num

lemma transpose_identity : Matrix.identity.transpose = Matrix.identity := by
  norm_num [Matrix.transpose, Matrix.getE, Matrix.identity, List.range_succ]

lemma mulPoint_identity (p : Point) : Matrix.identity.mulPoint p = p := by
  obtain ⟨x, y, z⟩ := p
  norm_num [Matrix.mulPoint, Matrix.getE, Matrix.identity]

lemma mulVector_identity (v : Vector) : Matrix.identity.mulVector v = v := by
  obtain ⟨x, y, z⟩ := v
  norm_num [Matrix.mulVector, Matrix.getE, Matrix.identity]

lemma sqrt_four : Real.sqrt 4 = 2 := by
  rw [show (4:ℝ) = 2 ^ 2 by norm_num, Real.sqrt_sq (by norm_num : (0:ℝ) ≤ 2)]

lemma sqrt_hundred : Real.sqrt 100 = 10 := by
  rw [show (100:ℝ) = 10 ^ 2 by norm_num, Real.sqrt_sq (by norm_num : (0:ℝ) ≤ 10)]

lemma magnitude_normalize (v : Vector) (h : v ≠ ⟨0, 0, 0⟩) :
    v.normalize.magnitude = 1 := by
  obtain ⟨x, y, z⟩ := v
  have hc : ¬ (x = 0 ∧ y = 0 ∧ z = 0) := by
    intro hc
    exact h (by simp [hc.1, hc.2.1, hc.2.2])
  have hs : 0 < x ^ 2 + y ^ 2 + z ^ 2 := by
    rcases not_and_or.1 hc with h1 | h2
    · positivity
    rcases not_and_or.1 h2 with h1 | h1 <;> positivity
  have hmag : Vector.magnitude ⟨x, y, z⟩ = Real.sqrt (x ^ 2 + y ^ 2 + z ^ 2) := rfl
  simp only [Vector.normalize, Vector.magnitude]
  rw [div_pow, div_pow, div_pow, div_add_div_same, div_add_div_same,
    Real.sq_sqrt hs.le, div_self (ne_of_gt hs), Real.sqrt_one]

end RT

/-! ## Claim C3: hit selection. -/

namespace RT

set_option maxHeartbeats 1000000

lemma hitGo_spec (l : List Intersection) :
    ∀ (cur : ℝ) (acc : Option Intersection),
      (hitGo l cur acc = acc ∧ ∀ i ∈ l, cur ≤ i.t) ∨
      (∃ r, hitGo l cur acc = some r ∧ r ∈ l ∧ r.t < cur ∧ ∀ j ∈ l, r.t ≤ j.t) := by
  induction l with
  | nil => intro cur acc; left; exact ⟨rfl, by simp⟩
  | cons i rest ih =>
    intro cur acc
    simp only [hitGo]
    by_cases h : i.t < cur
    · rw [if_pos h]
      rcases ih i.t (some i) with ⟨heq, hall⟩ | ⟨r, heq, hmem, hlt, hall⟩
      · right
        refine ⟨i, heq, List.mem_cons_self i rest, h, ?_⟩
        intro j hj
        rcases List.mem_cons.1 hj with rfl | hj
        · exact le_refl _
        · exact hall j hj
      · right
        refine ⟨r, heq, List.mem_cons_of_mem _ hmem, lt_trans hlt h, ?_⟩
        intro j hj
        rcases List.mem_cons.1 hj with rfl | hj
        · exact hlt.le
        · exact hall j hj
    · rw [if_neg h]
      rcases ih cur acc with ⟨heq, hall⟩ | ⟨r, heq, hmem, hlt, hall⟩
      · left
        refine ⟨heq, ?_⟩
        intro j hj
        rcases List.mem_cons.1 hj with rfl | hj
        · exact not_lt.1 h
        · exact hall j hj
      · right
        refine ⟨r, heq, List.mem_cons_of_mem _ hmem, hlt, ?_⟩
        intro j hj
        rcases List.mem_cons.1 hj with rfl | hj
        · exact hlt.le.trans (not_lt.1 h)
        · exact hall j hj

/-- C3: `hit` ignores intersections with t ≤ 0 (it filters to `t > 0.0`),
returns the remaining intersection with the smallest t (none when the list is
empty or every t is non-positive), and on the spec's concrete examples over a
single shape returns t = 2 for {5, 7, −3, 2} and none for {−2, −1}.  The
hypothesis `t < f32::MAX` reflects the scan's initial `current = f32::MAX`. -/
theorem C3_hit_lowest_nonnegative (l : List Intersection)
    (hl : ∀ i ∈ l, i.t < FMAX) :
    (hit l = none ↔ ∀ i ∈ l, i.t ≤ 0) ∧
    (∀ r, hit l = some r → r ∈ l ∧ 0 < r.t ∧ ∀ j ∈ l, 0 < j.t → r.t ≤ j.t) ∧
    hit [⟨5, defaultSphere⟩, ⟨7, defaultSphere⟩, ⟨-3, defaultSphere⟩,
         ⟨2, defaultSphere⟩] = some ⟨2, defaultSphere⟩ ∧
    hit [⟨-2, defaultSphere⟩, ⟨-1, defaultSphere⟩] = none := by
  have hmemf : ∀ i, i ∈ l.filter (fun i => decide (0 < i.t)) ↔ i ∈ l ∧ 0 < i.t := by
    intro i
    rw [List.mem_filter]
    simp
  refine ⟨⟨?_, ?_⟩, ?_, ?_, ?_⟩
  · intro hnone i hi
    by_contra hpos
    push_neg at hpos
    have hif : i ∈ l.filter (fun i => decide (0 < i.t)) := (hmemf i).2 ⟨hi, hpos⟩
    rcases hitGo_spec (l.filter (fun i => decide (0 < i.t))) FMAX none with
      ⟨_, hall⟩ | ⟨r, heq, _, _, _⟩
    · exact absurd (hall i hif) (not_le.2 (hl i hi))
    · rw [hit, heq] at hnone
      exact Option.some_ne_none r hnone
  · intro hall0
    have hfl : l.filter (fun i => decide (0 < i.t)) = [] := by
      rw [List.filter_eq_nil_iff]
      intro a ha
      simp only [decide_eq_true_eq, not_lt]
      exact hall0 a ha
    rw [hit, hfl]
    rfl
  · intro r hr
    rcases hitGo_spec (l.filter (fun i => decide (0 < i.t))) FMAX none with
      ⟨heq, _⟩ | ⟨r2, heq, hmem, _, hall⟩
    · rw [hit, heq] at hr
      exact absurd hr (Option.noConfusion)
    · rw [hit, heq] at hr
      obtain rfl := Option.some.inj hr
      have hmem2 := (hmemf r2).1 hmem
      refine ⟨hmem2.1, hmem2.2, ?_⟩
      intro j hj hjpos
      exact hall j ((hmemf j).2 ⟨hj, hjpos⟩)
  · norm_num [hit, List.filter_cons, hitGo, FMAX, decide_eq_true_eq]
  · norm_num [hit, List.filter_cons, hitGo, FMAX, decide_eq_true_eq]

/-- Witness for C3 on the spec's concrete list over a single default sphere. -/
theorem C3_witness :
    (∀ i ∈ [(⟨5, defaultSphere⟩ : Intersection), ⟨7, defaultSphere⟩,
            ⟨-3, defaultSphere⟩, ⟨2, defaultSphere⟩], i.t < FMAX) ∧
    hit [(⟨5, defaultSphere⟩ : Intersection), ⟨7, defaultSphere⟩,
         ⟨-3, defaultSphere⟩, ⟨2, defaultSphere⟩] = some ⟨2, defaultSphere⟩ := by
  have hl : ∀ i ∈ [(⟨5, defaultSphere⟩ : Intersection), ⟨7, defaultSphere⟩,
      ⟨-3, defaultSphere⟩, ⟨2, defaultSphere⟩], i.t < FMAX := by
    intro i hi
    rcases List.mem_cons.1 hi with rfl | hi
    · norm_num [FMAX]
    rcases List.mem_cons.1 hi with rfl | hi
    · norm_num [FMAX]
    rcases List.mem_cons.1 hi with rfl | hi
    · norm_num [FMAX]
    rcases List.mem_cons.1 hi with rfl | hi
    · norm_num [FMAX]
    · exact absurd hi (List.not_mem_nil i)
  exact ⟨hl, (C3_hit_lowest_nonnegative _ hl).2.2.1⟩

end RT

/-! ## Claim C7: ray/sphere intersection. -/

namespace RT

set_option maxHeartbeats 1000000

lemma inverse_defaultSphere : Matrix.inverse defaultSphere.matrix = some Matrix.identity :=
  inverse_identity

/-- C7: `intersect` transforms the ray by the inverse sphere transform and
returns an empty sequence exactly when the object-space discriminant is
negative, and otherwise exactly two intersections with
t = (−b ∓ √disc)/(2a), both attached to the same sphere (equal t for a
tangent, disc = 0); concretely, the ray (0,0,−5) → (0,0,1) against the
identity-transform unit sphere yields t = 4 and t = 6. -/
theorem C7_intersect_contract (r : Ray) (s : Sphere) (minv : Matrix)
    (h : Matrix.inverse s.matrix = some minv) :
    ((quadDisc (r.transform minv) < 0 ∧ intersect r s = some []) ∨
     (0 ≤ quadDisc (r.transform minv) ∧
      intersect r s = some
        [⟨(-quadB (r.transform minv) - Real.sqrt (quadDisc (r.transform minv))) /
            (2 * quadA (r.transform minv)), s⟩,
         ⟨(-quadB (r.transform minv) + Real.sqrt (quadDisc (r.transform minv))) /
            (2 * quadA (r.transform minv)), s⟩] ∧
      (quadDisc (r.transform minv) = 0 →
        (-quadB (r.transform minv) - Real.sqrt (quadDisc (r.transform minv))) /
            (2 * quadA (r.transform minv)) =
        (-quadB (r.transform minv) + Real.sqrt (quadDisc (r.transform minv))) /
            (2 * quadA (r.transform minv))))) ∧
    intersect ⟨⟨0, 0, -5⟩, ⟨0, 0, 1⟩⟩ defaultSphere =
      some [⟨4, defaultSphere⟩, ⟨6, defaultSphere⟩] := by
  constructor
  · simp only [intersect, h]
    by_cases hd : quadDisc (r.transform minv) < 0
    · left
      exact ⟨hd, by rw [if_pos hd]⟩
    · right
      refine ⟨not_lt.1 hd, by rw [if_neg hd], ?_⟩
      intro h0
      rw [h0, Real.sqrt_zero]
      ring
  · have htr : Ray.transform ⟨⟨0, 0, -5⟩, ⟨0, 0, 1⟩⟩ Matrix.identity =
        ⟨⟨0, 0, -5⟩, ⟨0, 0, 1⟩⟩ := by
      rw [Ray.transform, mulPoint_identity, mulVector_identity]
    have hA : quadA (⟨⟨0, 0, -5⟩, ⟨0, 0, 1⟩⟩ : Ray) = 1 := by
      norm_num [quadA, Vector.dot]
    have hB : quadB (⟨⟨0, 0, -5⟩, ⟨0, 0, 1⟩⟩ : Ray) = -10 := by
      norm_num [quadB, Vector.dot, Point.sub]
    have hD : quadDisc (⟨⟨0, 0, -5⟩, ⟨0, 0, 1⟩⟩ : Ray) = 4 := by
      norm_num [quadDisc, quadA, quadB, quadC, Vector.dot, Point.sub]
    simp only [intersect, inverse_defaultSphere, htr, hD, hA, hB]
    rw [if_neg (by norm_num), sqrt_four]
    norm_num

/-- Witness for C7 at the identity-transform unit sphere. -/
theorem C7_witness :
    Matrix.inverse defaultSphere.matrix = some Matrix.identity ∧
    intersect ⟨⟨0, 0, -5⟩, ⟨0, 0, 1⟩⟩ defaultSphere =
      some [⟨4, defaultSphere⟩, ⟨6, defaultSphere⟩] :=
  ⟨inverse_defaultSphere,
   (C7_intersect_contract ⟨⟨0, 0, -5⟩, ⟨0, 0, 1⟩⟩ defaultSphere Matrix.identity
     inverse_defaultSphere).2⟩

end RT

/-! ## Claim C8: normal transformation. -/

namespace RT

set_option maxHeartbeats 1000000

/-- C8: for a sphere with (invertible) transform T, `normal_at` returns the
normalization of `transpose(inverse(T)) * object_space_normal`, where the
object-space normal is the inverse-transformed point minus the origin; when
that world-space vector is nonzero (as at every genuine surface point), the
returned normal has unit length. -/
theorem C8_normal_at_contract (s : Sphere) (p : Point) (ti : Matrix)
    (h : Matrix.inverse s.matrix = some ti)
    (hnz : (ti.transpose).mulVector ((ti.mulPoint p).sub ⟨0, 0, 0⟩) ≠ ⟨0, 0, 0⟩) :
    normalAt s p =
      some (((ti.transpose).mulVector ((ti.mulPoint p).sub ⟨0, 0, 0⟩)).normalize) ∧
    ((((ti.transpose).mulVector ((ti.mulPoint p).sub ⟨0, 0, 0⟩)).normalize).magnitude)
      = 1 := by
  constructor
  · simp only [normalAt, h]
  · exact magnitude_normalize _ hnz

lemma worldNormal_default_x :
    (Matrix.identity.transpose).mulVector
      ((Matrix.identity.mulPoint ⟨1, 0, 0⟩).sub ⟨0, 0, 0⟩) = ⟨1, 0, 0⟩ := by
  rw [transpose_identity, mulPoint_identity]
  norm_num [Point.sub, mulVector_identity]

/-- Witness for C8 on the default sphere at the surface point (1, 0, 0). -/
theorem C8_witness :
    Matrix.inverse defaultSphere.matrix = some Matrix.identity ∧
    (Matrix.identity.transpose).mulVector
      ((Matrix.identity.mulPoint ⟨1, 0, 0⟩).sub ⟨0, 0, 0⟩) ≠ ⟨0, 0, 0⟩ ∧
    normalAt defaultSphere ⟨1, 0, 0⟩ =
      some (((Matrix.identity.transpose).mulVector
        ((Matrix.identity.mulPoint ⟨1, 0, 0⟩).sub ⟨0, 0, 0⟩)).normalize) ∧
    ((((Matrix.identity.transpose).mulVector
        ((Matrix.identity.mulPoint ⟨1, 0, 0⟩).sub ⟨0, 0, 0⟩)).normalize).magnitude)
      = 1 := by
  have hnz : (Matrix.identity.transpose).mulVector
      ((Matrix.identity.mulPoint ⟨1, 0, 0⟩).sub ⟨0, 0, 0⟩) ≠ ⟨0, 0, 0⟩ := by
    rw [worldNormal_default_x]
    intro hc
    have := congrArg Vector.x hc
    norm_num at this
  have hmain := C8_normal_at_contract defaultSphere ⟨1, 0, 0⟩ Matrix.identity
    inverse_defaultSphere hnz
  exact ⟨inverse_defaultSphere, hnz, hmain.1, hmain.2⟩

end RT

/-! ## Claim C9: precomputed intersection state. -/

namespace RT

set_option maxHeartbeats 1000000

lemma normalize_unit_x : Vector.normalize ⟨1, 0, 0⟩ = ⟨1, 0, 0⟩ := by
  have h1 : ((1:ℝ) ^ 2 + 0 ^ 2 + 0 ^ 2) = 1 := by norm_num
  norm_num [Vector.normalize, Vector.magnitude, h1, Real.sqrt_one]

lemma normalAt_default_x : normalAt defaultSphere ⟨1, 0, 0⟩ = some ⟨1, 0, 0⟩ := by
  simp only [normalAt, inverse_defaultSphere]
  rw [worldNormal_default_x, normalize_unit_x]

lemma position_unit_x : Ray.position ⟨⟨0, 0, 0⟩, ⟨1, 0, 0⟩⟩ 1 = ⟨1, 0, 0⟩ := by
  norm_num [Ray.position, Point.addVector, Vector.smul]

lemma normalAt_pos_x :
    normalAt defaultSphere (Ray.position ⟨⟨0, 0, 0⟩, ⟨1, 0, 0⟩⟩ 1) = some ⟨1, 0, 0⟩ := by
  rw [position_unit_x]
  exact normalAt_default_x

/-- C9 counterexample: for the ray (0,0,0) → (1,0,0) hitting the unit sphere
at t = 1 the hit is from inside (the normal is flipped to (−1,0,0)), but the
code computes `over_point` from the UN-flipped normal and through the buggy
Point + Vector addition, yielding (1.005, 0, 0); the claim's
"point displaced by the (possibly flipped) normal times ε" is (0.995, 0, 0),
which differs by 0.01 ≫ ε. -/
theorem C9_counterexample :
    ∃ w, precompute ⟨1, defaultSphere⟩ ⟨⟨0, 0, 0⟩, ⟨1, 0, 0⟩⟩ = some w ∧
      w.inside ∧
      w.normal = ⟨-1, 0, 0⟩ ∧
      w.over_point = ⟨1.005, 0, 0⟩ ∧
      displace w.point (w.normal.smul 0.005) = ⟨0.995, 0, 0⟩ ∧
      ¬ Point.approxEq w.over_point (displace w.point (w.normal.smul 0.005)) := by
  refine ⟨⟨⟨1, defaultSphere⟩, Ray.position ⟨⟨0, 0, 0⟩, ⟨1, 0, 0⟩⟩ 1,
      Vector.neg ⟨1, 0, 0⟩,
      (if Vector.dot ⟨1, 0, 0⟩ (Vector.neg ⟨1, 0, 0⟩) < 0
        then Vector.neg ⟨1, 0, 0⟩ else ⟨1, 0, 0⟩),
      Vector.dot ⟨1, 0, 0⟩ (Vector.neg ⟨1, 0, 0⟩) < 0,
      Point.addVector (Ray.position ⟨⟨0, 0, 0⟩, ⟨1, 0, 0⟩⟩ 1)
        (Vector.smul ⟨1, 0, 0⟩ 0.005)⟩,
    by simp only [precompute, normalAt_pos_x], ?_, ?_, ?_, ?_, ?_⟩
  · show Vector.dot ⟨1, 0, 0⟩ (Vector.neg ⟨1, 0, 0⟩) < 0
    norm_num [Vector.dot, Vector.neg]
  · show (if Vector.dot ⟨1, 0, 0⟩ (Vector.neg ⟨1, 0, 0⟩) < 0
        then Vector.neg ⟨1, 0, 0⟩ else ⟨1, 0, 0⟩) = ⟨-1, 0, 0⟩
    norm_num [Vector.dot, Vector.neg]
  · show Point.addVector (Ray.position ⟨⟨0, 0, 0⟩, ⟨1, 0, 0⟩⟩ 1)
        (Vector.smul ⟨1, 0, 0⟩ 0.005) = ⟨1.005, 0, 0⟩
    norm_num [Ray.position, Point.addVector, Vector.smul]
  · show displace (Ray.position ⟨⟨0, 0, 0⟩, ⟨1, 0, 0⟩⟩ 1)
        (Vector.smul (if Vector.dot ⟨1, 0, 0⟩ (Vector.neg ⟨1, 0, 0⟩) < 0
          then Vector.neg ⟨1, 0, 0⟩ else ⟨1, 0, 0⟩) 0.005) = ⟨0.995, 0, 0⟩
    norm_num [Ray.position, Point.addVector, Vector.smul, Vector.dot, Vector.neg, displace]
  · intro hc
    have h1 := hc.1
    have he1 : Point.addVector (Ray.position ⟨⟨0, 0, 0⟩, ⟨1, 0, 0⟩⟩ 1)
        (Vector.smul ⟨1, 0, 0⟩ 0.005) = (⟨1.005, 0, 0⟩ : Point) := by
      norm_num [Ray.position, Point.addVector, Vector.smul]
    have he2 : displace (Ray.position ⟨⟨0, 0, 0⟩, ⟨1, 0, 0⟩⟩ 1)
        (Vector.smul (if Vector.dot ⟨1, 0, 0⟩ (Vector.neg ⟨1, 0, 0⟩) < 0
          then Vector.neg ⟨1, 0, 0⟩ else ⟨1, 0, 0⟩) 0.005) = (⟨0.995, 0, 0⟩ : Point) := by
      norm_num [Ray.position, Point.addVector, Vector.smul, Vector.dot, Vector.neg, displace]
    rw [he1, he2] at h1
    rw [fp_equal, epsilon] at h1
    norm_num at h1
    rw [abs_of_pos (by norm_num : (0:ℝ) < 1 / 100)] at h1
    norm_num at h1

/-- C9 (amended): `precompute` returns point = ray.position(t),
eye = −ray.direction, normal = the (flipped when normal·eye < 0) value of
shape.normal_at(point) with inside set accordingly; but `over_point` is built
from the UN-flipped normal (and through the Point + Vector addition as
implemented, which subtracts the y and z displacement components). -/
theorem C9_precompute_fields (i : Intersection) (r : Ray) (n : Vector)
    (h : normalAt i.object (r.position i.t) = some n) :
    ∃ w, precompute i r = some w ∧
      w.point = r.position i.t ∧
      w.eye = r.direction.neg ∧
      (w.inside ↔ n.dot r.direction.neg < 0) ∧
      w.normal = (if n.dot r.direction.neg < 0 then n.neg else n) ∧
      w.over_point = (r.position i.t).addVector (n.smul 0.005) := by
  refine ⟨⟨i, r.position i.t, r.direction.neg,
      (if n.dot r.direction.neg < 0 then n.neg else n),
      n.dot r.direction.neg < 0,
      (r.position i.t).addVector (n.smul 0.005)⟩,
    by simp only [precompute, h], rfl, rfl, Iff.rfl, rfl, rfl⟩

/-- Witness for the amended C9 at the inside hit of the default sphere. -/
theorem C9_witness :
    normalAt defaultSphere (Ray.position ⟨⟨0, 0, 0⟩, ⟨1, 0, 0⟩⟩ 1) = some ⟨1, 0, 0⟩ ∧
    ∃ w, precompute ⟨1, defaultSphere⟩ ⟨⟨0, 0, 0⟩, ⟨1, 0, 0⟩⟩ = some w ∧
      w.point = Ray.position ⟨⟨0, 0, 0⟩, ⟨1, 0, 0⟩⟩ 1 ∧
      w.eye = Vector.neg ⟨1, 0, 0⟩ ∧
      (w.inside ↔ Vector.dot ⟨1, 0, 0⟩ (Vector.neg ⟨1, 0, 0⟩) < 0) ∧
      w.normal = (if Vector.dot ⟨1, 0, 0⟩ (Vector.neg ⟨1, 0, 0⟩) < 0
        then Vector.neg ⟨1, 0, 0⟩ else ⟨1, 0, 0⟩) ∧
      w.over_point = Point.addVector (Ray.position ⟨⟨0, 0, 0⟩, ⟨1, 0, 0⟩⟩ 1)
        (Vector.smul ⟨1, 0, 0⟩ 0.005) :=
  ⟨normalAt_pos_x,
   C9_precompute_fields ⟨1, defaultSphere⟩ ⟨⟨0, 0, 0⟩, ⟨1, 0, 0⟩⟩ ⟨1, 0, 0⟩ normalAt_pos_x⟩

end RT

/-! ## Claim C4: lighting and the missing shadow flag. -/

namespace RT

set_option maxHeartbeats 1000000

lemma normalize_back_z : Vector.normalize ⟨0, 0, -10⟩ = ⟨0, 0, -1⟩ := by
  norm_num [Vector.normalize, Vector.magnitude, sqrt_hundred]

/-- C4: the claim says `lighting` takes an `in_shadow` flag and returns only
the ambient term when it is true.  The implemented `PointLight::lighting`
(src/point_light.rs) has no such parameter: at the spec's in-shadow
configuration (default material, white light at (0,0,−10), eye and normal
(0,0,−1)) it returns the full Phong value (1.9, 1.9, 1.9), whereas the
ambient-only result required for a shadowed point — and produced by the
spec-modelled five-argument `lightingShadowed` that `World::shade_hit`
actually calls — is (0.1, 0.1, 0.1); the two differ by 1.8 ≫ ε. -/
theorem C4_lighting_no_shadow_flag :
    lighting ⟨⟨0, 0, -10⟩, ⟨1, 1, 1⟩⟩ defaultMaterial ⟨0, 0, 0⟩ ⟨0, 0, -1⟩ ⟨0, 0, -1⟩ =
      ⟨1.9, 1.9, 1.9⟩ ∧
    lightingShadowed ⟨⟨0, 0, -10⟩, ⟨1, 1, 1⟩⟩ defaultMaterial ⟨0, 0, 0⟩ ⟨0, 0, -1⟩
      ⟨0, 0, -1⟩ True = ⟨0.1, 0.1, 0.1⟩ ∧
    ¬ Color.approxEq ⟨1.9, 1.9, 1.9⟩ ⟨0.1, 0.1, 0.1⟩ := by
  have hsub : Point.sub ⟨0, 0, -10⟩ ⟨0, 0, 0⟩ = (⟨0, 0, -10⟩ : Vector) := by
    norm_num [Point.sub]
  refine ⟨?_, ?_, ?_⟩
  · norm_num [lighting, hsub, normalize_back_z, Vector.dot, Vector.neg, Vector.reflect,
      Vector.sub, Vector.smul, Color.mul, Color.smul, Color.add, defaultMaterial,
      Real.one_rpow]
  · norm_num [lightingShadowed, Color.mul, Color.smul, defaultMaterial]
  · intro hc
    have h1 := hc.1
    rw [fp_equal, epsilon, show (1.9:ℝ) - 0.1 = 1.8 by norm_num,
      abs_of_pos (by norm_num : (0:ℝ) < 1.8)] at h1
    norm_num at h1

end RT

/-! ## Claim C2: the render loop. -/

namespace RT

set_option maxHeartbeats 1000000

/-- C2: the claim says `render` generates a ray and writes
`world.color_at(ray)` exactly once for every pixel (x, y) with
0 ≤ x < hsize, 0 ≤ y < vsize.  The source loops are
`for y in 0..(self.vsize - 1)` and `for x in 0..(self.hsize - 1)`, both
EXCLUSIVE, so the last row and last column are never visited: for a 2×2
camera only pixel (0,0) is written; (1,0), (0,1) and (1,1) are not. -/
theorem C2_render_loop_bug :
    (Camera.render (Camera.new 2 2 (Real.pi / 2)) defaultWorld).map
        (fun e => (e.1, e.2.1)) = [(0, 0)] ∧
    (1, 0) ∉ (Camera.render (Camera.new 2 2 (Real.pi / 2)) defaultWorld).map
        (fun e => (e.1, e.2.1)) ∧
    (0, 1) ∉ (Camera.render (Camera.new 2 2 (Real.pi / 2)) defaultWorld).map
        (fun e => (e.1, e.2.1)) ∧
    (1, 1) ∉ (Camera.render (Camera.new 2 2 (Real.pi / 2)) defaultWorld).map
        (fun e => (e.1, e.2.1)) := by
  have h : (Camera.render (Camera.new 2 2 (Real.pi / 2)) defaultWorld).map
      (fun e => (e.1, e.2.1)) = [(0, 0)] := by
    simp [Camera.render, Camera.new, show List.range 1 = [0] from rfl]
  refine ⟨h, ?_, ?_, ?_⟩ <;> rw [h] <;> simp

end RT
